import Mathlib

/-!
# Verification of the data-loading and train/validation-split orchestration

Shallow embedding of `src/utils.py` and `src/train.py` from the
rt-tutorials-rf-classifier repository.  Python values, the filesystem, and
process-wide random state are modelled explicitly; fallible Python code
returns `Except PyError`.  Library calls made by the source
(`json.load`, `pandas.read_csv`, `sklearn.model_selection.train_test_split`,
`numpy.random.seed`) are embedded at the level of their documented observable
behaviour; the Mersenne-Twister random stream is stood in for by an executable
deterministic permutation keyed by the seed, since no claim depends on the
particular permutation values, only on the split being a deterministic
permutation-based partition.
-/

/-- A Python scalar value, as found in configuration dictionaries and passed
as a seed.  `boolV` is separate from `intV` because Python's `bool` is a
subclass of `int`, which matters for `isinstance(x, int)`. -/
inductive PyVal where
  | intV (n : Int)
  | boolV (b : Bool)
  | floatV (q : ℚ)
  | strV (s : String)
  | noneV
  deriving DecidableEq

/-- Python exception classes raised by the embedded code.  The spec's
taxonomy maps onto these: NotFoundError / AmbiguousInputError /
InvalidFractionError / InvalidArgumentError are `ValueError`s with the shown
messages, and MissingDirectoryError is `FileNotFoundError`. -/
inductive PyError where
  | valueError (msg : String)
  | fileNotFoundError (msg : String)
  | notADirectoryError (msg : String)
  | isADirectoryError (msg : String)
  | keyError (msg : String)
  deriving DecidableEq

/-- `str(x)` for the Python scalars we model (only used for
`os.environ['PYTHONHASHSEED'] = str(seed_value)`). -/
def pyStrOf : PyVal → String
  | .intV n => toString n
  | .boolV true => "True"
  | .boolV false => "False"
  | .floatV q => toString q
  | .strV s => s
  | .noneV => "None"

/-- Python `isinstance(x, int)`: true for `int` and for `bool`
(`bool` subclasses `int`). -/
def isinstance_int : PyVal → Bool
  | .intV _ => true
  | .boolV _ => true
  | _ => false

/-- The integer value of a Python object for which `isinstance(x, int)`
holds (`True` is 1, `False` is 0). -/
def PyVal.toInt : PyVal → Int
  | .intV n => n
  | .boolV true => 1
  | .boolV false => 0
  | _ => 0

/-- An in-memory table (the model of a `pandas.DataFrame`): column names
plus an ordered list of rows. -/
structure Table where
  cols : List String
  rows : List (List PyVal)
  deriving DecidableEq

/-- Payload of a regular file, already classified by how it parses. -/
inductive FileData where
  | jsonFile (d : List (String × PyVal))
  | csvFile (t : Table)
  | otherFile
  deriving DecidableEq

/-- A directory entry: a regular file with its payload, or a directory with
the names of its children in `os.listdir` order. -/
inductive FSEntry where
  | file (data : FileData)
  | dir (names : List String)
  deriving DecidableEq

/-- A filesystem: a finite map from absolute path to entry, as an
association list. -/
abbrev FS := List (String × FSEntry)

def fs_lookup (fs : FS) (p : String) : Option FSEntry :=
  (fs.find? (fun e => e.1 = p)).map (·.2)

/-- `os.path.isdir`. -/
def os_path_isdir (fs : FS) (p : String) : Bool :=
  match fs_lookup fs p with
  | some (.dir _) => true
  | _ => false

/-- `os.path.isfile`. -/
def os_path_isfile (fs : FS) (p : String) : Bool :=
  match fs_lookup fs p with
  | some (.file _) => true
  | _ => false

/-- `os.path.exists`. -/
def os_path_exists (fs : FS) (p : String) : Bool :=
  (fs_lookup fs p).isSome

/-- `os.path.join` (POSIX). -/
def os_path_join (d f : String) : String := d ++ "/" ++ f

/-- Python `s.endswith(pat)`: suffix test on the character sequence. -/
def py_endswith (s pat : String) : Bool :=
  List.isSuffixOf pat.toList s.toList

/-- `os.listdir` under a guard that already established the path is a
directory (as in `read_json_as_dict`). -/
def os_listdir (fs : FS) (p : String) : List String :=
  match fs_lookup fs p with
  | some (.dir names) => names
  | _ => []

/-- `os.listdir` where the path is only known to exist: on a regular file it
raises `NotADirectoryError`, on a missing path `FileNotFoundError`. -/
def os_listdir_exc (fs : FS) (p : String) : Except PyError (List String) :=
  match fs_lookup fs p with
  | some (.dir names) => .ok names
  | some (.file _) => .error (.notADirectoryError ("Not a directory: " ++ p))
  | none => .error (.fileNotFoundError ("No such file or directory: " ++ p))

/-- `open(p); json.load(...)`: succeeds on a file whose content is JSON
parsing to a dict.  `json.JSONDecodeError` is a subclass of `ValueError`. -/
def json_load (fs : FS) (p : String) : Except PyError (List (String × PyVal)) :=
  match fs_lookup fs p with
  | some (.file (.jsonFile d)) => .ok d
  | some (.file _) => .error (.valueError ("Expecting value: " ++ p))
  | some (.dir _) => .error (.isADirectoryError ("Is a directory: " ++ p))
  | none => .error (.fileNotFoundError ("No such file or directory: " ++ p))

/-- `pandas.read_csv`: succeeds on a file whose content is a CSV table. -/
def pd_read_csv (fs : FS) (p : String) : Except PyError Table :=
  match fs_lookup fs p with
  | some (.file (.csvFile t)) => .ok t
  | some (.file _) => .error (.valueError ("Error tokenizing data: " ++ p))
  | some (.dir _) => .error (.isADirectoryError ("Is a directory: " ++ p))
  | none => .error (.fileNotFoundError ("No such file or directory: " ++ p))

/-- `utils.read_json_as_dict`.  If the input path is a directory, collects the
entries ending in `.json` (in listing order) and reads the FIRST one; raises
`ValueError` when there are none.  If the input path is a file it is read
as-is.  Otherwise `ValueError`. -/
def read_json_as_dict (fs : FS) (input_path : String) :
    Except PyError (List (String × PyVal)) :=
  if os_path_isdir fs input_path then
    let json_files :=
      ((os_listdir fs input_path).filter (fun f => py_endswith f ".json")).map
        (fun f => os_path_join input_path f)
    match json_files with
    | [] => .error (.valueError "No JSON files found in the directory")
    | json_file_path :: _ => json_load fs json_file_path
  else if os_path_isfile fs input_path then
    json_load fs input_path
  else
    .error (.valueError "Input path is neither a file nor a directory")

/-- `utils.read_csv_in_directory`.  Checks existence first
(`FileNotFoundError`), then lists the directory, filters names ending in
`.csv`, errors on zero or more than one candidate, and otherwise parses the
single candidate. -/
def read_csv_in_directory (fs : FS) (file_dir_path : String) :
    Except PyError Table :=
  if os_path_exists fs file_dir_path = false then
    .error (.fileNotFoundError ("Directory does not exist: " ++ file_dir_path))
  else
    match os_listdir_exc fs file_dir_path with
    | .error e => .error e
    | .ok names =>
      let csv_files := names.filter (fun f => py_endswith f ".csv")
      match csv_files with
      | [] =>
          .error (.valueError ("No CSV file found in directory " ++ file_dir_path))
      | [only] => pd_read_csv fs (os_path_join file_dir_path only)
      | _ :: _ :: _ =>
          .error (.valueError
            ("Multiple CSV files found in directory " ++ file_dir_path ++ "."))

/-! ## Process-wide random state and seeding (`utils.set_seeds`) -/

/-- The process-wide random state touched by `set_seeds`: the environment
hash seed (`os.environ['PYTHONHASHSEED']`), the state of Python's `random`
module, and the state of numpy's legacy global `RandomState`.  Each PRNG
state is abstracted to the last seed applied to it (`none` = unseeded). -/
structure ProcState where
  hashSeed : Option String
  pyRand : Option Int
  npRand : Option Nat
  deriving DecidableEq

/-- `numpy.random.seed(s)` (legacy global generator).  numpy accepts only
seeds in `[0, 2^32)` and raises `ValueError: Seed must be between 0 and
2**32 - 1` otherwise; on success the numeric/array PRNG state becomes a
function of the seed.  Returns the (possibly updated) state alongside the
outcome, since a raised exception leaves prior mutations in place. -/
def np_random_seed (s : Int) (st : ProcState) : Except PyError Unit × ProcState :=
  if 0 ≤ s ∧ s < 2 ^ 32 then
    (.ok (), { st with npRand := some s.toNat })
  else
    (.error (.valueError "Seed must be between 0 and 2**32 - 1"), st)

/-- The error message of the `else` branch of `set_seeds`. -/
def invalidSeedMsg (v : PyVal) : String :=
  "Invalid seed value: " ++ pyStrOf v ++ ". Cannot set seeds."

/-- The `then` branch of `set_seeds`: sets `PYTHONHASHSEED`, seeds Python's
`random`, then seeds numpy's global generator. -/
def seed_all_sources (v : PyVal) (st : ProcState) : Except PyError Unit × ProcState :=
  let st1 := { st with hashSeed := some (pyStrOf v) }
  let st2 := { st1 with pyRand := some v.toInt }
  np_random_seed v.toInt st2

/-- `utils.set_seeds`: if `isinstance(seed_value, int)` set all three
process-wide random sources, else raise `ValueError` (leaving the state
untouched, since the check precedes every mutation). -/
def set_seeds (seed_value : PyVal) (st : ProcState) :
    Except PyError Unit × ProcState :=
  if isinstance_int seed_value then
    seed_all_sources seed_value st
  else
    (.error (.valueError (invalidSeedMsg seed_value)), st)

/-! ## The split (`utils.split_train_val` via `sklearn.train_test_split`) -/

/-- One step of a 64-bit linear congruential generator; stands in for the
Mersenne-Twister stream of `numpy.random.RandomState(seed)`.  The claims
depend only on the draw sequence being a deterministic function of the
seed. -/
def lcgNext (s : Nat) : Nat := (s * 6364136223846793005 + 1442695040888963407) % 2 ^ 64

/-- Fisher–Yates draw: repeatedly pick the `s mod length`-th remaining
element.  The fuel argument equals the list length at the top-level call. -/
def drawFuel : Nat → Nat → List Nat → List Nat
  | 0, _, _ => []
  | _ + 1, _, [] => []
  | k + 1, s, x :: rest =>
    (x :: rest).getD (s % (rest.length + 1)) 0 ::
      drawFuel k (lcgNext s) ((x :: rest).eraseIdx (s % (rest.length + 1)))

/-- The permutation of `0, …, n-1` produced by the generator seeded with
`seed` (model of `RandomState(seed).permutation(n)` inside `ShuffleSplit`). -/
def shufflePerm (seed n : Nat) : List Nat :=
  drawFuel n (lcgNext seed) (List.range n)

/-- `data.iloc[idxs]`: the sub-table made of the rows at the given positions,
in the given order.  Builds a new table; the input is untouched. -/
def Table.selectRows (t : Table) (idxs : List Nat) : Table :=
  { cols := t.cols, rows := idxs.filterMap (fun i => t.rows[i]?) }

/-- The seed actually used by `train_test_split`: the explicit
`random_state` when given, otherwise a draw from the global numpy state. -/
def rngSeedOf (st : ProcState) (random_state : Option Nat) : Nat :=
  match random_state with
  | some s => s
  | none => st.npRand.getD 0

/-- `sklearn.model_selection.train_test_split(data, test_size, random_state)`
with a float-kind `test_size`:
* `test_size` outside `(0, 1)` raises `ValueError`;
* `n_test = ceil(test_size * n)`, `n_train = n - n_test`; `n_train = 0`
  raises `ValueError` ("resulting train set will be empty");
* otherwise a seeded permutation of the row indices is drawn, the first
  `n_test` indices form the test (validation) set and the next `n_train`
  the train set, and fresh tables are built from those rows. -/
def train_test_split (st : ProcState) (data : Table) (test_size : ℚ)
    (random_state : Option Nat) : Except PyError (Table × Table) :=
  if test_size ≤ 0 ∨ 1 ≤ test_size then
    .error (.valueError
      "test_size should be either positive and smaller than the number of samples or a float in the (0, 1) range")
  else
    let n := data.rows.length
    let n_test := (Int.ceil (test_size * (n : ℚ))).toNat
    let n_train := n - n_test
    if n_train = 0 then
      .error (.valueError "the resulting train set will be empty")
    else
      let permutation := shufflePerm (rngSeedOf st random_state) n
      let ind_test := permutation.take n_test
      let ind_train := (permutation.drop n_test).take n_train
      .ok (data.selectRows ind_train, data.selectRows ind_test)

/-- `utils.split_train_val`: splits with `test_size = val_pct` and the fixed
internal `random_state=42`, independent of the process-wide state. -/
def split_train_val (st : ProcState) (data : Table) (val_pct : ℚ) :
    Except PyError (Table × Table) :=
  train_test_split st data val_pct (some 42)

/-! ## Heap model for the frame property of the split -/

/-- A tiny heap of DataFrame objects: cell `r` holds the table referenced by
`r`; allocation appends a new cell. -/
structure Heap where
  cells : List Table
  deriving DecidableEq

def Heap.alloc (h : Heap) (t : Table) : Heap × Nat :=
  ({ cells := h.cells ++ [t] }, h.cells.length)

/-- `split_train_val` run against the heap: reads the table at reference
`r`, performs the split, and allocates the two result tables as new objects.
The heap is returned in all cases (an exception mutates nothing here, since
`train_test_split` raises before any write). -/
def split_train_val_heap (st : ProcState) (h : Heap) (r : Nat) (val_pct : ℚ) :
    Heap × Except PyError (Nat × Nat) :=
  match h.cells[r]? with
  | none => (h, .error (.keyError "invalid DataFrame reference"))
  | some data =>
    match split_train_val st data val_pct with
    | .error e => (h, .error e)
    | .ok (tr, va) =>
      let (h1, rt) := h.alloc tr
      let (h2, rv) := h1.alloc va
      (h2, .ok (rt, rv))

/-! ## The training orchestration (`train.run_training`) as a trace model -/

/-- The observable steps of `run_training`, in source order.  Steps whose
implementation lives outside this repository (schema handling,
preprocessing, imbalance handling, the predictor) are opaque events. -/
inductive Step where
  | loadSchema
  | saveSchema
  | loadModelConfig
  | seedStep
  | loadTrainData
  | splitStep
  | trainPipelineEncoder
  | transformTrain
  | transformVal
  | handleImbalance
  | savePipelineEncoder
  | loadHyperparams
  | trainModel
  | saveModel
  | evaluateModel
  | printAccuracy
  | printCompleted
  deriving DecidableEq

/-- The steps that consume pseudo-random state (the split itself and the
downstream components the spec lists as shuffle/encoding-dependent). -/
def shuffleDependent : Step → Bool
  | .loadTrainData => false
  | .splitStep => true
  | .trainPipelineEncoder => true
  | .handleImbalance => true
  | .trainModel => true
  | _ => false

/-- `dict[key]` lookup: `KeyError` when absent. -/
def dict_get (d : List (String × PyVal)) (key : String) : Except PyError PyVal :=
  match d.find? (fun e => e.1 = key) with
  | some e => .ok e.2
  | none => .error (.keyError key)

/-- The value of `model_config["validation_split"]` as sklearn's float-kind
`test_size`; a non-float value is rejected inside `train_test_split`. -/
def asFloatFraction : PyVal → Except PyError ℚ
  | .floatV q => .ok q
  | _ => .error (.valueError "Invalid value for test_size")

/-- `train.run_training`, restricted to the orchestration this repository
implements: load & save the schema (external), load the model config JSON,
seed via `set_seeds(model_config["seed_value"])`, load the train CSV, split
via `split_train_val(..., model_config["validation_split"])`, then hand the
splits to the external pipeline/imbalance/predictor steps.  An exception at
any step aborts the run (fail-fast), truncating the emitted trace.  Returns
the emitted trace together with the run's outcome. -/
def run_training (fs : FS) (st0 : ProcState)
    (model_config_file_path train_dir : String) :
    List Step × Except PyError (Table × Table) :=
  match read_json_as_dict fs model_config_file_path with
  | .error e => ([.loadSchema, .saveSchema, .loadModelConfig], .error e)
  | .ok model_config =>
    match dict_get model_config "seed_value" with
    | .error e => ([.loadSchema, .saveSchema, .loadModelConfig], .error e)
    | .ok seedv =>
      match set_seeds seedv st0 with
      | (.error e, _) =>
        ([.loadSchema, .saveSchema, .loadModelConfig, .seedStep], .error e)
      | (.ok _, st1) =>
        match read_csv_in_directory fs train_dir with
        | .error e =>
          ([.loadSchema, .saveSchema, .loadModelConfig, .seedStep,
            .loadTrainData], .error e)
        | .ok train_data =>
          match
            (match dict_get model_config "validation_split" with
             | .error e => .error e
             | .ok vs =>
               match asFloatFraction vs with
               | .error e => .error e
               | .ok val_pct => split_train_val st1 train_data val_pct :
                Except PyError (Table × Table))
          with
          | .error e =>
            ([.loadSchema, .saveSchema, .loadModelConfig, .seedStep,
              .loadTrainData, .splitStep], .error e)
          | .ok splits =>
            ([.loadSchema, .saveSchema, .loadModelConfig, .seedStep,
              .loadTrainData, .splitStep, .trainPipelineEncoder,
              .transformTrain, .transformVal, .handleImbalance,
              .savePipelineEncoder, .loadHyperparams, .trainModel,
              .saveModel, .evaluateModel, .printAccuracy, .printCompleted],
             .ok splits)

/-- `seedPrecedes late seeded tr` scans the trace `tr` left to right,
tracking in `seeded` whether `seedStep` has occurred, and checks that every
step satisfying `late` is only ever encountered after `seedStep`. -/
def seedPrecedes (late : Step → Bool) : Bool → List Step → Bool
  | _, [] => true
  | seeded, s :: rest =>
    if late s then
      seeded && seedPrecedes late seeded rest
    else
      seedPrecedes late (seeded || (s == Step.seedStep)) rest


/-! ## Concrete fixtures used by witnesses and counterexamples -/

/-- An unseeded initial process state. -/
def procState0 : ProcState := { hashSeed := none, pyRand := none, npRand := none }

/-- A five-row single-column table. -/
def table5 : Table :=
  { cols := ["x"], rows := [[.intV 0], [.intV 1], [.intV 2], [.intV 3], [.intV 4]] }

/-- The train side of splitting `table5` with `val_pct = 2/5`
(`shufflePerm 42 5 = [3, 0, 4, 1, 2]`, train indices `[4, 1, 2]`). -/
def table5train : Table :=
  { cols := ["x"], rows := [[.intV 4], [.intV 1], [.intV 2]] }

/-- The validation side of splitting `table5` with `val_pct = 2/5`
(test indices `[3, 0]`). -/
def table5val : Table :=
  { cols := ["x"], rows := [[.intV 3], [.intV 0]] }

/-- A table with no rows. -/
def tableEmpty : Table := { cols := ["x"], rows := [] }

/-- A one-cell heap holding `table5`. -/
def heap5 : Heap := { cells := [table5] }

/-- A directory holding two JSON files. -/
def fsTwoJson : FS :=
  [("d", .dir ["a.json", "b.json"]),
   ("d/a.json", .file (.jsonFile [("k", .intV 1)])),
   ("d/b.json", .file (.jsonFile [("k", .intV 2)]))]

/-- Two plain files at top level (no directories). -/
def fsFilesOnly : FS :=
  [("cfg.txt", .file (.jsonFile [("a", .intV 1)])),
   ("train.csv", .file (.csvFile table5))]

/-- Directories with one, zero and two CSV candidates. -/
def fsCsvWorld : FS :=
  [("good", .dir ["train.csv", "notes.txt"]),
   ("good/train.csv", .file (.csvFile table5)),
   ("good/notes.txt", .file .otherFile),
   ("none", .dir ["notes.txt"]),
   ("none/notes.txt", .file .otherFile),
   ("many", .dir ["a.csv", "b.csv"]),
   ("many/a.csv", .file (.csvFile table5)),
   ("many/b.csv", .file (.csvFile tableEmpty))]

/-! ## Helper lemmas about the shuffled permutation and row selection -/

theorem perm_getD_cons_eraseIdx :
    ∀ (xs : List Nat) (i : Nat), i < xs.length →
      List.Perm (xs.getD i 0 :: xs.eraseIdx i) xs
  | [], i, h => absurd h (by simp)
  | x :: rest, 0, _ => by simp
  | x :: rest, i + 1, h => by
    have h' : i < rest.length := by simpa using h
    have ih := perm_getD_cons_eraseIdx rest i h'
    simp only [List.getD_cons_succ, List.eraseIdx_cons_succ]
    exact (List.Perm.swap x (rest.getD i 0) (rest.eraseIdx i)).trans (ih.cons x)

theorem drawFuel_perm :
    ∀ (k s : Nat) (xs : List Nat), xs.length ≤ k →
      List.Perm (drawFuel k s xs) xs
  | 0, _, [], _ => by simp [drawFuel]
  | 0, _, _ :: _, h => absurd h (by simp)
  | _ + 1, _, [], _ => by simp [drawFuel]
  | k + 1, s, x :: rest, h => by
    have hi : s % (rest.length + 1) < (x :: rest).length := by
      simpa using Nat.mod_lt s (Nat.succ_pos rest.length)
    have hlen : ((x :: rest).eraseIdx (s % (rest.length + 1))).length ≤ k := by
      rw [List.length_eraseIdx_of_lt hi]
      simpa using Nat.le_of_succ_le_succ h
    have ih := drawFuel_perm k (lcgNext s) _ hlen
    exact (ih.cons _).trans (perm_getD_cons_eraseIdx _ _ hi)

theorem shufflePerm_perm (seed n : Nat) :
    List.Perm (shufflePerm seed n) (List.range n) :=
  drawFuel_perm n (lcgNext seed) (List.range n) (by simp)

theorem shufflePerm_length (seed n : Nat) : (shufflePerm seed n).length = n :=
  ((shufflePerm_perm seed n).length_eq).trans (List.length_range n)

theorem shufflePerm_mem_lt (seed n : Nat) {i : Nat} (h : i ∈ shufflePerm seed n) :
    i < n :=
  List.mem_range.mp ((shufflePerm_perm seed n).subset h)

theorem filterMap_getElem_range (l : List (List PyVal)) :
    List.filterMap (fun i => l[i]?) (List.range l.length) = l := by
  induction l using List.reverseRecOn with
  | nil => rfl
  | append_singleton xs a ih =>
    rw [List.length_append, List.length_singleton, List.range_succ,
      List.filterMap_append]
    have h1 : List.filterMap (fun i => (xs ++ [a])[i]?) (List.range xs.length)
        = List.filterMap (fun i => xs[i]?) (List.range xs.length) := by
      apply List.filterMap_congr
      intro i hi
      rw [List.mem_range] at hi
      rw [List.getElem?_append_left hi]
    rw [h1, ih]
    simp [List.filterMap_cons, List.getElem?_concat_length]

theorem selectRows_rows_perm (t : Table) (idxs : List Nat)
    (h : List.Perm idxs (List.range t.rows.length)) :
    List.Perm (t.selectRows idxs).rows t.rows := by
  have hp := h.filterMap (fun i => t.rows[i]?)
  rw [filterMap_getElem_range] at hp
  exact hp

theorem selectRows_length (t : Table) :
    ∀ idxs : List Nat, (∀ i ∈ idxs, i < t.rows.length) →
      (t.selectRows idxs).rows.length = idxs.length := by
  intro idxs h
  induction idxs with
  | nil => rfl
  | cons i is ih =>
    have hi : i < t.rows.length := h i (List.mem_cons_self i is)
    have hsome : t.rows[i]? = some t.rows[i] := List.getElem?_eq_getElem hi
    have htail := ih (fun j hj => h j (List.mem_cons_of_mem i hj))
    simp only [Table.selectRows, List.filterMap_cons, hsome] at htail ⊢
    simpa using htail

/-- On success, `train_test_split` produced a permutation-based partition:
the two outputs concatenate to a permutation of the input rows, their
sizes add up to the input size, the test side has exactly
`ceil(test_size * n)` rows, and the column headers are preserved. -/
theorem train_test_split_ok_anatomy (st : ProcState) (data : Table)
    (f : ℚ) (rs : Option Nat) (tr va : Table)
    (h : train_test_split st data f rs = .ok (tr, va)) :
    List.Perm (tr.rows ++ va.rows) data.rows ∧
    tr.rows.length + va.rows.length = data.rows.length ∧
    va.rows.length = (Int.ceil (f * (data.rows.length : ℚ))).toNat ∧
    tr.cols = data.cols ∧ va.cols = data.cols := by
  unfold train_test_split at h
  by_cases hc : f ≤ 0 ∨ 1 ≤ f
  · rw [if_pos hc] at h
    exact absurd h (by simp)
  · rw [if_neg hc] at h
    simp only at h
    by_cases hz :
        data.rows.length - (Int.ceil (f * (data.rows.length : ℚ))).toNat = 0
    · rw [if_pos hz] at h
      exact absurd h (by simp)
    · rw [if_neg hz] at h
      set n := data.rows.length with hn
      set ntest := (Int.ceil (f * (n : ℚ))).toNat with hnt
      set perm := shufflePerm (rngSeedOf st rs) n with hperm
      have hpl : perm.length = n := shufflePerm_length _ _
      have hdroplen : (perm.drop ntest).length = n - ntest := by
        simp [hpl]
      have htake : (perm.drop ntest).take (n - ntest) = perm.drop ntest :=
        List.take_of_length_le (le_of_eq hdroplen)
      rw [htake] at h
      have hinj := h
      injection hinj with hpair
      have htr : tr = data.selectRows (perm.drop ntest) :=
        (congrArg Prod.fst hpair).symm
      have hva : va = data.selectRows (perm.take ntest) :=
        (congrArg Prod.snd hpair).symm
      have hsplitperm : List.Perm (perm.drop ntest ++ perm.take ntest)
          (List.range n) := by
        have h1 : List.Perm (perm.drop ntest ++ perm.take ntest)
            (perm.take ntest ++ perm.drop ntest) := List.perm_append_comm
        rw [List.take_append_drop] at h1
        exact h1.trans (by rw [hperm]; exact shufflePerm_perm _ _)
      have hrowsperm : List.Perm (tr.rows ++ va.rows) data.rows := by
        rw [htr, hva]
        have hsel := selectRows_rows_perm data (perm.drop ntest ++ perm.take ntest)
          hsplitperm
        simpa [Table.selectRows, List.filterMap_append] using hsel
      refine ⟨hrowsperm, ?_, ?_, by rw [htr]; rfl, by rw [hva]; rfl⟩
      · have hle := hrowsperm.length_eq
        simpa [List.length_append] using hle
      · have hmem : ∀ i ∈ perm.take ntest, i < n := fun i hi =>
          shufflePerm_mem_lt _ _ (List.mem_of_mem_take hi)
        have hlen := selectRows_length data (perm.take ntest) hmem
        have hntn : ntest ≤ n := by
          by_contra hgt
          push_neg at hgt
          exact hz (Nat.sub_eq_zero_of_le (le_of_lt hgt))
        rw [hva, hlen, List.length_take, hpl]
        exact Nat.min_eq_left hntn

/-- The ceiling of a rational is within one of its rounding: this is the
"± rounding" tolerance the spec allows between `len(val)` and
`round(n * val_pct)`. -/
theorem ceil_sub_round_abs_le (x : ℚ) : |(Int.ceil x : ℤ) - round x| ≤ 1 := by
  rw [round_eq]
  have hup : Int.floor (x + 1 / 2) ≤ Int.ceil x := by
    have h1 : ((Int.floor (x + 1 / 2) : ℤ) : ℚ) ≤ x + 1 / 2 := Int.floor_le _
    have h2 : x ≤ ((Int.ceil x : ℤ) : ℚ) := Int.le_ceil _
    have h3 : ((Int.floor (x + 1 / 2) : ℤ) : ℚ) < ((Int.ceil x : ℤ) : ℚ) + 1 := by
      linarith
    have h4 : (Int.floor (x + 1 / 2) : ℤ) < Int.ceil x + 1 := by
      exact_mod_cast h3
    omega
  have hlo : Int.ceil x - 1 ≤ Int.floor (x + 1 / 2) := by
    have h1 : Int.ceil x ≤ Int.floor x + 1 := Int.ceil_le_floor_add_one x
    have h2 : Int.floor x ≤ Int.floor (x + 1 / 2) :=
      Int.floor_le_floor (by linarith)
    omega
  rw [abs_le]
  omega

/-- Evaluation rule for `train_test_split` on the success path, with the
size computation supplied as a hypothesis (so concrete instances only need
`norm_num` on the rational ceiling). -/
theorem train_test_split_eval (st : ProcState) (data : Table) (f : ℚ)
    (rs : Option Nat) (ntest : Nat)
    (hf : ¬(f ≤ 0 ∨ 1 ≤ f))
    (hceil : (Int.ceil (f * (data.rows.length : ℚ))).toNat = ntest)
    (hnz : ¬(data.rows.length - ntest = 0)) :
    train_test_split st data f rs =
      .ok (data.selectRows
            (((shufflePerm (rngSeedOf st rs) data.rows.length).drop ntest).take
              (data.rows.length - ntest)),
           data.selectRows
            ((shufflePerm (rngSeedOf st rs) data.rows.length).take ntest)) := by
  unfold train_test_split
  rw [if_neg hf]
  simp only [hceil]
  rw [if_neg hnz]

theorem split_table5_eval :
    split_train_val procState0 table5 (2 / 5) = .ok (table5train, table5val) := by
  have h := train_test_split_eval procState0 table5 (2 / 5) (some 42) 2
    (by norm_num)
    (by
      have hl : table5.rows.length = 5 := rfl
      rw [hl]
      have hc : Int.ceil ((2 : ℚ) / 5 * ((5 : Nat) : ℚ)) = 2 := by norm_num
      rw [hc]
      rfl)
    (by decide)
  unfold split_train_val
  rw [h]
  rfl

/-! ## Claim theorems -/

/-- C4: the train/validation split is a fixed function of the table and the
fraction alone.  Because `split_train_val` passes the fixed internal
`random_state = 42` to `train_test_split`, its result does not depend on the
process-wide random state: two calls under any two global states agree, and
seeding with any value (via `set_seeds`) between calls changes nothing. -/
theorem C4_split_independent_of_global_seed (st1 st2 : ProcState)
    (data : Table) (f : ℚ) :
    split_train_val st1 data f = split_train_val st2 data f ∧
    (∀ v : PyVal,
      split_train_val (set_seeds v st1).2 data f = split_train_val st1 data f) :=
  ⟨rfl, fun _ => rfl⟩

/-- C5: for every `val_pct` outside the open interval (0, 1) — that is,
`val_pct ≤ 0` or `1 ≤ val_pct` — `split_train_val` fails with the
InvalidFractionError (`ValueError`) raised by `train_test_split`'s
`test_size` validation. -/
theorem C5_invalid_fraction_error (st : ProcState) (data : Table) (f : ℚ)
    (h : f ≤ 0 ∨ 1 ≤ f) :
    split_train_val st data f =
      .error (.valueError
        "test_size should be either positive and smaller than the number of samples or a float in the (0, 1) range") := by
  unfold split_train_val train_test_split
  rw [if_pos h]

theorem C5_invalid_fraction_error_witness :
    split_train_val procState0 table5 (3 / 2) =
      .error (.valueError
        "test_size should be either positive and smaller than the number of samples or a float in the (0, 1) range") :=
  C5_invalid_fraction_error procState0 table5 (3 / 2) (Or.inr (by norm_num))

/-- C10: the seed validation of `set_seeds` is `isinstance(seed_value, int)`,
which accepts booleans (Python's `bool` subclasses `int`) and negative
integers: for those inputs the local invalid-argument branch is never taken
and the call proceeds to the seeding path. -/
theorem C10_isinstance_accepts_bools_and_negatives (b : Bool) (n : Int)
    (st : ProcState) :
    isinstance_int (.boolV b) = true ∧
    isinstance_int (.intV n) = true ∧
    set_seeds (.boolV b) st = seed_all_sources (.boolV b) st ∧
    set_seeds (.intV n) st = seed_all_sources (.intV n) st :=
  ⟨rfl, rfl, rfl, rfl⟩

/-- C6 (amended): a non-integer seed makes `set_seeds` fail with the
InvalidArgumentError (`ValueError`) and mutates no process-wide random
state; an integer seed inside numpy's accepted range `[0, 2^32)` succeeds
and seeds all three sources.  (Integers outside that range pass the local
check but are rejected inside `numpy.random.seed`; see the
counterexample.) -/
theorem C6_set_seeds_validation (v : PyVal) (st : ProcState) :
    (isinstance_int v = false →
      set_seeds v st = (.error (.valueError (invalidSeedMsg v)), st)) ∧
    (∀ n : Int, v = .intV n → 0 ≤ n → n < 2 ^ 32 →
      set_seeds v st =
        (.ok (), { hashSeed := some (toString n), pyRand := some n,
                   npRand := some n.toNat })) := by
  constructor
  · intro hni
    unfold set_seeds
    simp [hni]
  · intro n hv h0 hlt
    subst hv
    show seed_all_sources (.intV n) st = _
    unfold seed_all_sources np_random_seed
    simp only [PyVal.toInt, pyStrOf]
    rw [if_pos ⟨h0, hlt⟩]

theorem C6_set_seeds_validation_witness :
    set_seeds (.strV "abc") procState0 =
      (.error (.valueError (invalidSeedMsg (.strV "abc"))), procState0) ∧
    set_seeds (.intV 7) procState0 =
      (.ok (), { hashSeed := some (toString (7 : Int)), pyRand := some 7,
                 npRand := some ((7 : Int)).toNat }) :=
  ⟨(C6_set_seeds_validation (.strV "abc") procState0).1 rfl,
   (C6_set_seeds_validation (.intV 7) procState0).2 7 rfl (by decide) (by decide)⟩

/-- C6 counterexample: `-1` is an integer, so it passes the local
`isinstance` check, yet `set_seeds(-1)` does not succeed: numpy's seed
range check raises `ValueError`, after the hash seed and the Python PRNG
were already mutated.  This refutes "for every integer seed value it
succeeds and seeds all three sources". -/
theorem C6_counterexample_negative_seed :
    isinstance_int (.intV (-1)) = true ∧
    (set_seeds (.intV (-1)) procState0).1 =
      .error (.valueError "Seed must be between 0 and 2**32 - 1") ∧
    (set_seeds (.intV (-1)) procState0).2 =
      { hashSeed := some "-1", pyRand := some (-1), npRand := none } := by
  refine ⟨rfl, ?_, ?_⟩ <;>
    · unfold set_seeds seed_all_sources np_random_seed
      have h1 : toString (-1 : Int) = "-1" := rfl
      norm_num [isinstance_int, PyVal.toInt, pyStrOf, procState0, h1]

/-- C1 (amended): when the input path is a directory that contains at least
one `.json` entry, `read_json_as_dict` silently reads the FIRST candidate
in listing order — it never raises an ambiguity error for multiple
candidates; only a directory with zero `.json` entries raises
`ValueError`. -/
theorem C1_json_picks_first (fs : FS) (p : String) (names : List String)
    (hdir : fs_lookup fs p = some (.dir names)) :
    (names.filter (fun f => py_endswith f ".json") = [] →
      read_json_as_dict fs p =
        .error (.valueError "No JSON files found in the directory")) ∧
    (∀ f rest, names.filter (fun f => py_endswith f ".json") = f :: rest →
      read_json_as_dict fs p = json_load fs (os_path_join p f)) := by
  have hisdir : os_path_isdir fs p = true := by
    unfold os_path_isdir
    rw [hdir]
  have hld : os_listdir fs p = names := by
    unfold os_listdir
    rw [hdir]
  constructor
  · intro hfil
    simp [read_json_as_dict, hisdir, hld, hfil]
  · intro f rest hfil
    simp [read_json_as_dict, hisdir, hld, hfil]

theorem C1_json_picks_first_witness :
    read_json_as_dict fsTwoJson "d" =
      json_load fsTwoJson (os_path_join "d" "a.json") :=
  (C1_json_picks_first fsTwoJson "d" ["a.json", "b.json"] rfl).2
    "a.json" ["b.json"] rfl

/-- C1 counterexample: a directory with two `.json` files does NOT make
`read_json_as_dict` fail — it silently returns the contents of the first
candidate, refuting "fails with AmbiguousInputError and never silently
picks one". -/
theorem C1_counterexample_two_json_files :
    ((os_listdir fsTwoJson "d").filter (fun f => py_endswith f ".json")).length
      = 2 ∧
    read_json_as_dict fsTwoJson "d" = .ok [("k", .intV 1)] :=
  ⟨rfl, rfl⟩

/-- C2: error taxonomy of the CSV data loader.  A missing path fails with
MissingDirectoryError (`FileNotFoundError`) regardless of anything else —
the existence check precedes resolution; an existing directory with zero
`.csv` entries fails with NotFoundError (`ValueError`), with two or more
fails with AmbiguousInputError (`ValueError`), and with exactly one returns
the table parsed from that file. -/
theorem C2_csv_loader_resolution (fs : FS) (p : String) :
    (os_path_exists fs p = false →
      read_csv_in_directory fs p =
        .error (.fileNotFoundError ("Directory does not exist: " ++ p))) ∧
    (∀ names, fs_lookup fs p = some (.dir names) →
      (names.filter (fun f => py_endswith f ".csv") = [] →
        read_csv_in_directory fs p =
          .error (.valueError ("No CSV file found in directory " ++ p))) ∧
      (∀ a b rest,
        names.filter (fun f => py_endswith f ".csv") = a :: b :: rest →
        read_csv_in_directory fs p =
          .error (.valueError
            ("Multiple CSV files found in directory " ++ p ++ "."))) ∧
      (∀ f t, names.filter (fun f => py_endswith f ".csv") = [f] →
        fs_lookup fs (os_path_join p f) = some (.file (.csvFile t)) →
        read_csv_in_directory fs p = .ok t)) := by
  constructor
  · intro hne
    unfold read_csv_in_directory
    rw [if_pos hne]
  · intro names hdir
    have hex : os_path_exists fs p = true := by
      unfold os_path_exists
      rw [hdir]
      rfl
    have hexne : ¬(os_path_exists fs p = false) := by
      rw [hex]
      simp
    have hlde : os_listdir_exc fs p = .ok names := by
      unfold os_listdir_exc
      rw [hdir]
    refine ⟨?_, ?_, ?_⟩
    · intro hfil
      unfold read_csv_in_directory
      rw [if_neg hexne, hlde]
      simp [hfil]
    · intro a b rest hfil
      unfold read_csv_in_directory
      rw [if_neg hexne, hlde]
      simp [hfil]
    · intro f t hfil hcsv
      unfold read_csv_in_directory
      rw [if_neg hexne, hlde]
      simp [hfil, pd_read_csv, hcsv]

theorem C2_csv_loader_resolution_witness :
    read_csv_in_directory fsCsvWorld "missing" =
      .error (.fileNotFoundError ("Directory does not exist: " ++ "missing")) ∧
    read_csv_in_directory fsCsvWorld "none" =
      .error (.valueError ("No CSV file found in directory " ++ "none")) ∧
    read_csv_in_directory fsCsvWorld "many" =
      .error (.valueError
        ("Multiple CSV files found in directory " ++ "many" ++ ".")) ∧
    read_csv_in_directory fsCsvWorld "good" = .ok table5 :=
  ⟨(C2_csv_loader_resolution fsCsvWorld "missing").1 rfl,
   ((C2_csv_loader_resolution fsCsvWorld "none").2 ["notes.txt"] rfl).1 rfl,
   (((C2_csv_loader_resolution fsCsvWorld "many").2 ["a.csv", "b.csv"] rfl).2.1)
      "a.csv" "b.csv" [] rfl,
   (((C2_csv_loader_resolution fsCsvWorld "good").2 ["train.csv", "notes.txt"]
      rfl).2.2) "train.csv" table5 rfl rfl⟩

/-- C3 (amended): whenever `split_train_val` on a fraction in (0, 1)
returns a pair — it raises instead exactly when the train side would be
empty, e.g. on an empty table (see the counterexample) — the two outputs
are a permutation-partition of the input rows (no row in both, every input
row in exactly one output, counted with multiplicity), their sizes sum to
the input size, and the validation size is within one row of
`round(n * val_pct)`. -/
theorem C3_split_partition (st : ProcState) (data : Table) (f : ℚ)
    (tr va : Table) (hf0 : 0 < f) (hf1 : f < 1)
    (h : split_train_val st data f = .ok (tr, va)) :
    List.Perm (tr.rows ++ va.rows) data.rows ∧
    tr.rows.length + va.rows.length = data.rows.length ∧
    |(va.rows.length : ℤ) - round (f * (data.rows.length : ℚ))| ≤ 1 := by
  obtain ⟨hperm, hsum, hva, -, -⟩ :=
    train_test_split_ok_anatomy st data f (some 42) tr va h
  refine ⟨hperm, hsum, ?_⟩
  have hnn : (0 : ℚ) ≤ f * (data.rows.length : ℚ) :=
    mul_nonneg (le_of_lt hf0) (Nat.cast_nonneg _)
  have hceil0 : (0 : ℤ) ≤ Int.ceil (f * (data.rows.length : ℚ)) :=
    Int.ceil_nonneg hnn
  have hcast : ((va.rows.length : Nat) : ℤ)
      = Int.ceil (f * (data.rows.length : ℚ)) := by
    rw [hva]
    exact Int.toNat_of_nonneg hceil0
  rw [hcast]
  exact ceil_sub_round_abs_le _

theorem C3_split_partition_witness :
    (0 < (2 : ℚ) / 5 ∧ (2 : ℚ) / 5 < 1) ∧
    (List.Perm (table5train.rows ++ table5val.rows) table5.rows ∧
     table5train.rows.length + table5val.rows.length = table5.rows.length ∧
     |(table5val.rows.length : ℤ) - round ((2 : ℚ) / 5 * (table5.rows.length : ℚ))| ≤ 1) :=
  ⟨⟨by norm_num, by norm_num⟩,
   C3_split_partition procState0 table5 (2 / 5) table5train table5val
     (by norm_num) (by norm_num) split_table5_eval⟩

/-- C3 counterexample: on the empty table with the in-range fraction `1/2`,
`split_train_val` does not return a pair at all — `train_test_split`
raises because the resulting train set would be empty.  This refutes the
claim's universal quantification over every table. -/
theorem C3_counterexample_empty_table :
    (0 < (1 : ℚ) / 2 ∧ (1 : ℚ) / 2 < 1) ∧
    split_train_val procState0 tableEmpty (1 / 2) =
      .error (.valueError "the resulting train set will be empty") := by
  refine ⟨⟨by norm_num, by norm_num⟩, ?_⟩
  unfold split_train_val train_test_split
  rw [if_neg (by norm_num)]
  simp only
  rw [if_pos]
  simp [tableEmpty]

/-- C7: in every execution of `run_training` — over every filesystem,
initial random state and configured paths, including the aborted
(fail-fast) ones — the emitted trace never performs the data load, the
split, or any other shuffle-dependent step before the seeding step. -/
theorem C7_seeding_precedes_data_load_and_split (fs : FS) (st : ProcState)
    (model_config_file_path train_dir : String) :
    seedPrecedes (fun s => (s == Step.loadTrainData) || shuffleDependent s)
      false (run_training fs st model_config_file_path train_dir).1 = true := by
  unfold run_training
  repeat' split
  all_goals rfl

/-- C8 (amended): when the input path is an existing regular file,
`read_json_as_dict` reads it as-is without enforcing the `.json`
extension; `read_csv_in_directory`, however, has no file branch — on an
existing file path it fails with `NotADirectoryError` from `os.listdir`
rather than using the file. -/
theorem C8_file_path_dispatch (fs : FS) (p : String)
    (h : os_path_isfile fs p = true) :
    read_json_as_dict fs p = json_load fs p ∧
    read_csv_in_directory fs p =
      .error (.notADirectoryError ("Not a directory: " ++ p)) := by
  obtain ⟨d, hd⟩ : ∃ d, fs_lookup fs p = some (.file d) := by
    unfold os_path_isfile at h
    cases hl : fs_lookup fs p with
    | none =>
      rw [hl] at h
      simp at h
    | some e =>
      cases e with
      | file d => exact ⟨d, rfl⟩
      | dir ns =>
        rw [hl] at h
        simp at h
  have hisdir : os_path_isdir fs p = false := by
    unfold os_path_isdir
    rw [hd]
  have hex : ¬(os_path_exists fs p = false) := by
    unfold os_path_exists
    rw [hd]
    simp
  constructor
  · simp [read_json_as_dict, hisdir, h]
  · unfold read_csv_in_directory
    rw [if_neg hex]
    unfold os_listdir_exc
    rw [hd]

theorem C8_file_path_dispatch_witness :
    read_json_as_dict fsFilesOnly "cfg.txt" = json_load fsFilesOnly "cfg.txt" ∧
    read_csv_in_directory fsFilesOnly "cfg.txt" =
      .error (.notADirectoryError ("Not a directory: " ++ "cfg.txt")) :=
  C8_file_path_dispatch fsFilesOnly "cfg.txt" rfl

/-- C8 counterexample: `train.csv` is an existing regular file, yet the CSV
loader does not use it as-is — it raises `NotADirectoryError`, refuting
the "for both resolvers" part of the claim. -/
theorem C8_counterexample_csv_loader_on_file :
    os_path_isfile fsFilesOnly "train.csv" = true ∧
    fs_lookup fsFilesOnly "train.csv" = some (.file (.csvFile table5)) ∧
    read_csv_in_directory fsFilesOnly "train.csv" =
      .error (.notADirectoryError ("Not a directory: " ++ "train.csv")) :=
  ⟨rfl, rfl, rfl⟩

theorem split_heap5_eval :
    split_train_val_heap procState0 heap5 0 (2 / 5) =
      ({ cells := [table5, table5train, table5val] }, .ok (1, 2)) := by
  have h0 : heap5.cells[0]? = some table5 := rfl
  unfold split_train_val_heap
  simp only [h0]
  rw [split_table5_eval]
  rfl

/-- Case analysis for the heap-level split: either nothing happened to the
heap and an error is reported, or two fresh cells were appended and their
references returned. -/
theorem split_train_val_heap_cases (st : ProcState) (h : Heap) (r : Nat)
    (f : ℚ) :
    ((split_train_val_heap st h r f).1 = h ∧
      ∃ e, (split_train_val_heap st h r f).2 = .error e) ∨
    (∃ tr va, split_train_val_heap st h r f =
        ({ cells := h.cells ++ [tr] ++ [va] },
         .ok (h.cells.length, (h.cells ++ [tr]).length))) := by
  unfold split_train_val_heap
  split
  · exact Or.inl ⟨rfl, _, rfl⟩
  · split
    · exact Or.inl ⟨rfl, _, rfl⟩
    · simp only [Heap.alloc]
      exact Or.inr ⟨_, _, rfl⟩

/-- C9: the split never mutates the table it reads.  In the heap model,
every pre-existing cell — in particular the input table, with its rows,
columns and row order — is unchanged after `split_train_val_heap`, and on
success the two returned references are fresh, distinct objects. -/
theorem C9_split_preserves_input (st : ProcState) (h : Heap) (r : Nat)
    (f : ℚ) :
    (∀ i, i < h.cells.length →
      (split_train_val_heap st h r f).1.cells[i]? = h.cells[i]?) ∧
    (∀ rt rv, (split_train_val_heap st h r f).2 = .ok (rt, rv) →
      h.cells.length ≤ rt ∧ h.cells.length ≤ rv ∧ rt ≠ rv ∧
      (split_train_val_heap st h r f).1.cells.length = h.cells.length + 2) := by
  rcases split_train_val_heap_cases st h r f with ⟨h1, e, h2⟩ | ⟨tr, va, heq⟩
  · refine ⟨fun i hi => by rw [h1], fun rt rv hok => ?_⟩
    rw [h2] at hok
    simp at hok
  · have hlen1 : (h.cells ++ [tr]).length = h.cells.length + 1 := by
      simp
    refine ⟨fun i hi => ?_, fun rt rv hok => ?_⟩
    · rw [heq]
      show (h.cells ++ [tr] ++ [va])[i]? = h.cells[i]?
      have hi1 : i < (h.cells ++ [tr]).length := by
        rw [hlen1]
        omega
      rw [List.getElem?_append_left hi1, List.getElem?_append_left hi]
    · rw [heq] at hok
      simp only [Except.ok.injEq, Prod.mk.injEq] at hok
      obtain ⟨hrt, hrv⟩ := hok
      subst hrt
      subst hrv
      rw [hlen1]
      refine ⟨le_refl _, by omega, by omega, ?_⟩
      rw [heq]
      simp

theorem C9_split_preserves_input_witness :
    (split_train_val_heap procState0 heap5 0 (2 / 5)).1.cells[0]?
      = heap5.cells[0]? ∧
    (heap5.cells.length ≤ 1 ∧ heap5.cells.length ≤ 2 ∧ (1 : Nat) ≠ 2 ∧
     (split_train_val_heap procState0 heap5 0 (2 / 5)).1.cells.length
       = heap5.cells.length + 2) :=
  ⟨(C9_split_preserves_input procState0 heap5 0 (2 / 5)).1 0 (by decide),
   (C9_split_preserves_input procState0 heap5 0 (2 / 5)).2 1 2
     (by rw [split_heap5_eval])⟩
